import Mathlib

deriving instance DecidableEq for Except

/-!
Shallow embedding of the chaiii coffee/tea voting service.

The authoritative Domain Service is the Express + Mongo backend in
`src/app.js`; the route handlers there are embedded as pure state
transformers below.  The cascade-deleting `deleteSession` operation only
exists in the localStorage variant `src/app-firebase.js` and is embedded
from that source.

Modelling conventions:
- Mongo documents become Lean structures; the collections become lists in
  insertion order (`create` appends, `findOne` is `List.find?` on the list,
  `updateMany` maps over all matches, `findOneAndUpdate` rewrites the first
  match via `updateFirst`).
- Strings (ids, names, employee codes) are modelled as `Nat`; a request
  field that is absent or falsy is `Option.none`.
- `crypto.randomUUID()` is modelled by passing the generated id as an extra
  argument; uniqueness of UUIDs becomes an explicit freshness side
  condition (`opOk`) on operation sequences.
- `new Date()` timestamps are `Nat` arguments.
- A thrown mongoose schema-validation error (the `enum` on `Vote.type`)
  is the `schemaValidation` outcome, surfaced by the route's catch block
  as HTTP 500; the explicit `res.status(400)` rejections are the 400-class
  outcomes.
-/

namespace Chaiii

/-- `role ∈ {EMPLOYEE, ADMIN}` from the `userSchema` enum. -/
inductive Role where
  | EMPLOYEE
  | ADMIN
deriving DecidableEq, Repr

/-- A `User` document (`userSchema` in src/app.js). -/
structure User where
  id : Nat
  name : Nat
  employeeId : Nat
  role : Role
deriving DecidableEq, Repr

/-- The string constant 'COFFEE' of the `voteSchema` type enum. -/
def COFFEE : Nat := 0

/-- The string constant 'TEA' of the `voteSchema` type enum. -/
def TEA : Nat := 1

/-- A `Vote` document (`voteSchema` in src/app.js).  `type` is a raw
client-supplied value; the schema enum is enforced in `castVote`. -/
structure Vote where
  id : Nat
  sessionId : Nat
  userId : Nat
  userName : Option Nat
  type : Nat
  timestamp : Nat
deriving DecidableEq, Repr

/-- A `Session` document (`sessionSchema` in src/app.js). -/
structure Session where
  id : Nat
  startTime : Nat
  endTime : Option Nat
  isActive : Bool
  totalVotes : Nat
deriving DecidableEq, Repr

/-- The record store: the three Mongo collections, in insertion order. -/
structure State where
  users : List User
  sessions : List Session
  votes : List Vote
deriving DecidableEq, Repr

/-- Rewrite the first element satisfying `p` by `f`, leave the rest alone:
the effect of Mongo's `findOneAndUpdate` on a list-modelled collection. -/
def updateFirst (p : α → Bool) (f : α → α) : List α → List α
  | [] => []
  | a :: as => if p a then f a :: as else a :: updateFirst p f as

/-- Outcomes of `POST /api/votes`.  `missingFields` and `duplicateVote` are
the route's explicit `res.status(400)` responses; `schemaValidation` is the
mongoose enum rejection thrown by `Vote.create` and caught as a 500. -/
inductive VoteErr where
  | missingFields
  | duplicateVote
  | schemaValidation
deriving DecidableEq, Repr

/-- HTTP status the API boundary attaches to each vote failure. -/
def VoteErr.status : VoteErr → Nat
  | .missingFields => 400
  | .duplicateVote => 400
  | .schemaValidation => 500

/-- The `voteSchema` enum check: `type: { enum: ['COFFEE', 'TEA'] }`. -/
def validVoteType (t : Nat) : Bool := t == COFFEE || t == TEA

/-- `app.post('/api/votes')` from src/app.js: reject missing fields (400),
reject an existing `(sessionId, userId)` vote (400), insert the new vote
(mongoose validates the `type` enum here, throwing → 500), then
`$inc` the matching session's `totalVotes`. -/
def castVote (st : State) (sessionId userId userName ty : Option Nat)
    (newId now : Nat) : Except VoteErr Vote × State :=
  match sessionId, userId, ty with
  | some sid, some uid, some t =>
    match st.votes.find? (fun v => v.sessionId == sid && v.userId == uid) with
    | some _ => (.error .duplicateVote, st)
    | none =>
      if validVoteType t then
        let v : Vote := ⟨newId, sid, uid, userName, t, now⟩
        (.ok v,
          { st with
            votes := st.votes ++ [v]
            sessions := updateFirst (fun s => s.id == sid)
              (fun s => { s with totalVotes := s.totalVotes + 1 }) st.sessions })
      else
        (.error .schemaValidation, st)
  | _, _, _ => (.error .missingFields, st)

/-- Failure of `POST /api/sessions/start`: the 403 admin guard. -/
inductive SessErr where
  | forbidden
deriving DecidableEq, Repr

/-- `User.findOne({ id: req.query.userId })`.  When the query parameter is
absent, mongoose strips the `undefined` filter key, so the source runs
`findOne({})` and returns the first stored user (in the seeded deployment:
the admin created by `/api/init`); the in-page client calls
`/sessions/start` with no userId and relies on exactly this. -/
def lookupUser (st : State) (userId : Option Nat) : Option User :=
  match userId with
  | some uid => st.users.find? (fun u => u.id == uid)
  | none => st.users.head?

/-- The guard `!user || user.role !== 'ADMIN'`, as the positive test. -/
def requesterIsAdmin (st : State) (userId : Option Nat) : Bool :=
  match lookupUser st userId with
  | some u => u.role == Role.ADMIN
  | none => false

/-- `app.post('/api/sessions/start')` from src/app.js: 403 unless the
user lookup resolves to an admin (an absent userId resolves to the first
stored user, see `lookupUser`); otherwise `updateMany` deactivates every
active session and a fresh session `{isActive: true, totalVotes: 0}` is
created. -/
def startSession (st : State) (userId : Option Nat) (newId now : Nat) :
    Except SessErr Session × State :=
  if requesterIsAdmin st userId then
    (.ok ⟨newId, now, none, true, 0⟩,
      { st with
        sessions :=
          (st.sessions.map
            (fun x => if x.isActive then { x with isActive := false } else x))
          ++ [⟨newId, now, none, true, 0⟩] })
  else
    (.error .forbidden, st)

/-- `app.post('/api/sessions/:id/end')` from src/app.js:
`findOneAndUpdate({id}, {isActive: false, endTime: now}, {new: true})` —
rewrites the first matching session and returns the updated document, or
returns `null` (and changes nothing) when no session matches. -/
def endSession (st : State) (sid now : Nat) : Option Session × State :=
  match st.sessions.find? (fun s => s.id == sid) with
  | none => (none, st)
  | some s =>
    (some { s with isActive := false, endTime := some now },
      { st with
        sessions := updateFirst (fun x => x.id == sid)
          (fun x => { x with isActive := false, endTime := some now })
          st.sessions })

/-- `app.get('/api/sessions/active')` from src/app.js: when a `userId`
query parameter is supplied, return `null` unless that user exists and is
an admin; otherwise return `findOne({isActive: true})`. -/
def getActiveSession (st : State) (userId : Option Nat) : Option Session :=
  match userId with
  | some uid =>
    match st.users.find? (fun u => u.id == uid) with
    | some u =>
      if u.role == Role.ADMIN then st.sessions.find? (fun s => s.isActive)
      else none
    | none => none
  | none => st.sessions.find? (fun s => s.isActive)

/-- Outcomes of `POST /api/auth/login`. -/
inductive AuthErr where
  | missingEmployeeId
  | invalidAdmin
  | userNotFound
deriving DecidableEq, Repr

/-- HTTP status the API boundary attaches to each login failure. -/
def AuthErr.status : AuthErr → Nat
  | .missingEmployeeId => 400
  | .invalidAdmin => 401
  | .userNotFound => 401

/-- `app.post('/api/auth/login')` from src/app.js.  `roleAdmin` is the
test `role === 'ADMIN'` on the request body.  Employee branch: look up an
EMPLOYEE user by code; register a new one when absent and a name was
supplied; 401 when absent and no name. -/
def login (st : State) (employeeId name : Option Nat) (roleAdmin : Bool)
    (newId : Nat) : Except AuthErr User × State :=
  match employeeId with
  | none => (.error .missingEmployeeId, st)
  | some eid =>
    if roleAdmin then
      match st.users.find?
          (fun u => u.employeeId == eid && u.role == Role.ADMIN) with
      | some u => (.ok u, st)
      | none => (.error .invalidAdmin, st)
    else
      match st.users.find?
          (fun u => u.employeeId == eid && u.role == Role.EMPLOYEE) with
      | some u => (.ok u, st)
      | none =>
        match name with
        | some n =>
          let u : User := ⟨newId, n, eid, Role.EMPLOYEE⟩
          (.ok u, { st with users := st.users ++ [u] })
        | none => (.error .userNotFound, st)

/-- `app.deleteSession` from src/app-firebase.js: drop the session and
cascade-delete every vote referencing it. -/
def deleteSession (st : State) (sid : Nat) : State :=
  { st with
    sessions := st.sessions.filter (fun s => s.id != sid)
    votes := st.votes.filter (fun v => v.sessionId != sid) }

/-- The `User.findOne({employeeId, role: 'EMPLOYEE'})` lookup of the
employee login branch. -/
def employeeFor (st : State) (eid : Nat) : Option User :=
  st.users.find? (fun u => u.employeeId == eid && u.role == Role.EMPLOYEE)

/-- The domain operations of the claims, with generated ids and clock
readings made explicit. -/
inductive Op where
  | castVote (sessionId userId userName ty : Option Nat) (newId now : Nat)
  | startSession (userId : Option Nat) (newId now : Nat)
  | endSession (sid now : Nat)
  | deleteSession (sid : Nat)
deriving DecidableEq, Repr

/-- Run one operation for its state effect. -/
def applyOp (st : State) : Op → State
  | .castVote sid uid un ty newId now => (castVote st sid uid un ty newId now).2
  | .startSession uid newId now => (startSession st uid newId now).2
  | .endSession sid now => (endSession st sid now).2
  | .deleteSession sid => deleteSession st sid

/-- Run a sequence of completed operations. -/
def applySeq (st : State) (ops : List Op) : State := ops.foldl applyOp st

/-- Is this a session-lifecycle operation (start or end)? -/
def isLifecycleOp : Op → Bool
  | .startSession _ _ _ => true
  | .endSession _ _ => true
  | _ => false

/-- Ids of all sessions in the store. -/
def sessionIds (st : State) : List Nat := st.sessions.map Session.id

/-- Session ids referenced by votes in the store. -/
def voteSessionIds (st : State) : List Nat := st.votes.map Vote.sessionId

/-- `crypto.randomUUID()` freshness for a new session id: the generated id
collides with no existing session id and with no session id any stored
vote refers to. -/
def freshSessionId (st : State) (i : Nat) : Bool :=
  !((sessionIds st).contains i) && !((voteSessionIds st).contains i)

/-- Side condition an operation's generated id must satisfy (UUID
freshness); only session creation needs one for the counter invariant. -/
def opOk (st : State) : Op → Bool
  | .startSession _ newId _ => freshSessionId st newId
  | _ => true

/-- Every operation of the sequence satisfies its freshness side condition
in the state where it runs. -/
def seqOk : State → List Op → Bool
  | _, [] => true
  | st, op :: ops => opOk st op && seqOk (applyOp st op) ops

/-- The sessions currently marked active. -/
def activeSessions (st : State) : List Session :=
  st.sessions.filter (fun s => s.isActive)

/-- At most one session is marked active. -/
def atMostOneActive (st : State) : Prop := (activeSessions st).length ≤ 1

/-- Denormalized-counter invariant: every session's `totalVotes` equals
the number of stored votes referencing it. -/
def countsOk (st : State) : Prop :=
  ∀ s ∈ st.sessions,
    s.totalVotes = (st.votes.filter (fun v => v.sessionId == s.id)).length

/-- Store well-formedness carried through the counter proof: session ids
are pairwise distinct, and counters match vote counts. -/
def Inv (st : State) : Prop := (sessionIds st).Nodup ∧ countsOk st

end Chaiii

namespace Chaiii

/-! ## List helper lemmas for `findOneAndUpdate` (`updateFirst`) -/

theorem updateFirst_of_none (p : α → Bool) (f : α → α) :
    ∀ l : List α, (∀ a ∈ l, p a = false) → updateFirst p f l = l := by
  intro l
  induction l with
  | nil => intro _; rfl
  | cons a as ih =>
    intro h
    simp only [updateFirst, h a (List.mem_cons_self a as)]
    simp only [Bool.false_eq_true, if_false, List.cons.injEq, true_and]
    exact ih (fun b hb => h b (List.mem_cons_of_mem a hb))

theorem map_updateFirst (g : α → β) (p : α → Bool) (f : α → α)
    (hf : ∀ a, g (f a) = g a) :
    ∀ l : List α, (updateFirst p f l).map g = l.map g := by
  intro l
  induction l with
  | nil => rfl
  | cons a as ih =>
    by_cases hp : p a
    · simp [updateFirst, hp, hf]
    · simp [updateFirst, hp, ih]

theorem updateFirst_comp (p : α → Bool) (f g : α → α)
    (hp : ∀ a, p (f a) = p a) :
    ∀ l : List α, updateFirst p g (updateFirst p f l) =
      updateFirst p (fun a => g (f a)) l := by
  intro l
  induction l with
  | nil => rfl
  | cons a as ih =>
    by_cases h : p a
    · simp [updateFirst, h, hp]
    · simp [updateFirst, h, ih]

theorem length_filter_updateFirst_le (p q : α → Bool) (f : α → α)
    (hf : ∀ a, q (f a) = true → q a = true) :
    ∀ l : List α, ((updateFirst p f l).filter q).length ≤ (l.filter q).length := by
  intro l
  induction l with
  | nil => exact Nat.le_refl _
  | cons a as ih =>
    by_cases h : p a
    · simp only [updateFirst, h, if_true]
      by_cases hq : q (f a)
      · simp [List.filter_cons, hq, hf a hq]
      · by_cases hqa : q a
        · simp only [List.filter_cons, hq, hqa]
          simp only [Bool.false_eq_true, if_false, if_true, List.length_cons]
          exact Nat.le_succ _
        · simp [List.filter_cons, hq, hqa]
    · simp only [updateFirst, h, if_false]
      by_cases hqa : q a
      · simpa [List.filter_cons, hqa] using ih
      · simpa [List.filter_cons, hqa] using ih

theorem map_if_id (g : α → Nat) (k : Nat) (f : α → α) :
    ∀ l : List α, (∀ a ∈ l, (g a == k) = false) →
      l.map (fun a => if g a == k then f a else a) = l := by
  intro l
  induction l with
  | nil => intro _; rfl
  | cons a as ih =>
    intro h
    simp only [List.map_cons, h a (List.mem_cons_self a as)]
    simp only [Bool.false_eq_true, if_false, List.cons.injEq, true_and]
    exact ih (fun b hb => h b (List.mem_cons_of_mem a hb))

theorem updateFirst_eq_map (g : α → Nat) (k : Nat) (f : α → α) :
    ∀ l : List α, (l.map g).Nodup →
      updateFirst (fun a => g a == k) f l =
        l.map (fun a => if g a == k then f a else a) := by
  intro l
  induction l with
  | nil => intro _; rfl
  | cons a as ih =>
    intro h
    rw [List.map_cons, List.nodup_cons] at h
    by_cases hk : g a == k
    · simp only [updateFirst, hk, if_true, List.map_cons, List.cons.injEq, true_and]
      have hout : ∀ b ∈ as, (g b == k) = false := by
        intro b hb
        by_contra hbk
        have : g b = k := by
          have := Bool.of_not_eq_false hbk
          exact eq_of_beq this
        have hak : g a = k := eq_of_beq hk
        exact h.1 (by rw [hak, ← this]; exact List.mem_map_of_mem g hb)
      rw [map_if_id g k f as hout]
    · simp only [updateFirst, hk, Bool.false_eq_true, if_false, List.map_cons,
        List.cons.injEq, true_and]
      exact ih h.2

end Chaiii

namespace Chaiii

/-! ## Simple state lemmas -/

theorem endSession_state (st : State) (sid now : Nat) :
    (endSession st sid now).2 =
      { st with
        sessions := updateFirst (fun x => x.id == sid)
          (fun x => { x with isActive := false, endTime := some now })
          st.sessions } := by
  unfold endSession
  cases hf : st.sessions.find? (fun s => s.id == sid) with
  | none =>
    have hnone : ∀ a ∈ st.sessions, (a.id == sid) = false := by
      intro a ha
      have := List.find?_eq_none.mp hf a ha
      simpa using this
    simp [updateFirst_of_none _ _ _ hnone]
  | some s => rfl

/-! ## Claim theorems -/

/-- Claim C1: if a Vote already exists for `(sessionId, userId)`, a
`castVote` call carrying that same pair (with any type value and any
userName) fails with the `DuplicateVote` 400 rejection and leaves the
whole store — votes and counters — unchanged. -/
theorem castVote_duplicate_rejected (st : State) (sid uid t : Nat)
    (un : Option Nat) (newId now : Nat)
    (h : ∃ v ∈ st.votes, v.sessionId = sid ∧ v.userId = uid) :
    castVote st (some sid) (some uid) un (some t) newId now =
      (.error VoteErr.duplicateVote, st) := by
  obtain ⟨v, hv, h1, h2⟩ := h
  have hsome : (st.votes.find?
      (fun v => v.sessionId == sid && v.userId == uid)).isSome := by
    rw [List.find?_isSome]
    exact ⟨v, hv, by simp [h1, h2]⟩
  obtain ⟨w, hw⟩ := Option.isSome_iff_exists.mp hsome
  simp [castVote, hw]

theorem castVote_duplicate_rejected_witness :
    castVote ⟨[], [], [⟨6, 5, 2, none, 0, 11⟩]⟩ (some 5) (some 2) none
        (some 1) 7 12 =
      (.error VoteErr.duplicateVote, ⟨[], [], [⟨6, 5, 2, none, 0, 11⟩]⟩) :=
  castVote_duplicate_rejected ⟨[], [], [⟨6, 5, 2, none, 0, 11⟩]⟩ 5 2 1 none 7 12
    ⟨⟨6, 5, 2, none, 0, 11⟩, by decide, rfl, rfl⟩

/-- Claim C4, counterexample: the claim says an absent requesting user
fails with Forbidden and creates no session, but in the seeded store
(admin first, as `/api/init` creates it) a `startSession` call with no
userId succeeds — `User.findOne({id: undefined})` becomes `findOne({})`
and returns the seeded admin — and a new active session is created. -/
theorem startSession_absent_user_counterexample :
    (startSession ⟨[⟨1, 100, 200, Role.ADMIN⟩], [], []⟩ none 5 10).1 =
      .ok ⟨5, 10, none, true, 0⟩ ∧
    (startSession ⟨[⟨1, 100, 200, Role.ADMIN⟩], [], []⟩ none 5 10).1 ≠
      .error SessErr.forbidden ∧
    (startSession ⟨[⟨1, 100, 200, Role.ADMIN⟩], [], []⟩ none 5 10).2.sessions =
      [⟨5, 10, none, true, 0⟩] := by
  decide

/-- Claim C4, amended: `startSession` fails with the 403 Forbidden
rejection and changes nothing whenever the user lookup resolves to no
user or to a non-ADMIN user, and succeeds (creating the new active
session) whenever it resolves to an ADMIN — where an absent userId
resolves not to no-user but to the first stored user, because mongoose
strips the undefined filter key. -/
theorem startSession_admin_guard (st : State) (uid : Option Nat)
    (newId now : Nat) :
    ((∀ u, lookupUser st uid = some u → u.role ≠ Role.ADMIN) →
      startSession st uid newId now = (.error SessErr.forbidden, st)) ∧
    (∀ u, lookupUser st uid = some u → u.role = Role.ADMIN →
      (startSession st uid newId now).1 = .ok ⟨newId, now, none, true, 0⟩) := by
  constructor
  · intro h
    have hfalse : requesterIsAdmin st uid = false := by
      unfold requesterIsAdmin
      cases hu : lookupUser st uid with
      | none => rfl
      | some u => simpa using h u hu
    simp [startSession, hfalse]
  · intro u hu hrole
    have htrue : requesterIsAdmin st uid = true := by
      unfold requesterIsAdmin
      rw [hu]
      simp [hrole]
    simp [startSession, htrue]

theorem startSession_admin_guard_witness :
    (startSession ⟨[⟨2, 101, 201, Role.EMPLOYEE⟩], [], []⟩ (some 2) 5 10 =
      (.error SessErr.forbidden, ⟨[⟨2, 101, 201, Role.EMPLOYEE⟩], [], []⟩)) ∧
    ((startSession ⟨[⟨1, 100, 200, Role.ADMIN⟩], [], []⟩ (some 1) 5 10).1 =
      .ok ⟨5, 10, none, true, 0⟩) :=
  ⟨(startSession_admin_guard ⟨[⟨2, 101, 201, Role.EMPLOYEE⟩], [], []⟩
      (some 2) 5 10).1 (by decide),
    (startSession_admin_guard ⟨[⟨1, 100, 200, Role.ADMIN⟩], [], []⟩
      (some 1) 5 10).2 ⟨1, 100, 200, Role.ADMIN⟩ (by decide) rfl⟩

/-- Claim C5: `getActiveSession` with a `userId` whose User record is
absent or whose role is not ADMIN returns `none`, in every state —
including states that do hold an active session. -/
theorem getActiveSession_nonadmin_none (st : State) (uid : Nat)
    (h : ∀ u, st.users.find? (fun u => u.id == uid) = some u →
      u.role ≠ Role.ADMIN) :
    getActiveSession st (some uid) = none := by
  cases hu : st.users.find? (fun u => u.id == uid) with
  | none => simp [getActiveSession, hu]
  | some u => simp [getActiveSession, hu, h u hu]

theorem getActiveSession_nonadmin_none_witness :
    getActiveSession
      ⟨[⟨2, 101, 201, Role.EMPLOYEE⟩], [⟨5, 10, none, true, 0⟩], []⟩
      (some 2) = none :=
  getActiveSession_nonadmin_none
    ⟨[⟨2, 101, 201, Role.EMPLOYEE⟩], [⟨5, 10, none, true, 0⟩], []⟩ 2
    (by decide)

/-- Claim C10: `endSession` on a session id matching no stored Session
returns a `null` document (no NotFound failure) and leaves every Session
record — indeed the whole store — unchanged. -/
theorem endSession_unknown_session (st : State) (sid now : Nat)
    (h : ∀ s ∈ st.sessions, s.id ≠ sid) :
    endSession st sid now = (none, st) := by
  have hf : st.sessions.find? (fun s => s.id == sid) = none := by
    rw [List.find?_eq_none]
    intro s hs
    simp [h s hs]
  simp [endSession, hf]

theorem endSession_unknown_session_witness :
    endSession ⟨[], [⟨1, 0, none, true, 3⟩], []⟩ 2 9 =
      (none, ⟨[], [⟨1, 0, none, true, 3⟩], []⟩) :=
  endSession_unknown_session ⟨[], [⟨1, 0, none, true, 3⟩], []⟩ 2 9 (by decide)

/-- Claim C6: employee login with an unknown code and no name fails with
the 401 Unauthorized rejection and creates no User; with a name it creates
exactly one new EMPLOYEE User (appended to the store) and returns it; any
later login with the same code returns that same User, creating nothing
and updating nothing — whatever name the later request carries. -/
theorem employee_login_lifecycle (st : State) (eid n newId newId2 : Nat)
    (nm2 : Option Nat) (h : employeeFor st eid = none) :
    login st (some eid) none false newId = (.error AuthErr.userNotFound, st) ∧
    AuthErr.status AuthErr.userNotFound = 401 ∧
    login st (some eid) (some n) false newId =
      (.ok ⟨newId, n, eid, Role.EMPLOYEE⟩,
        { st with users := st.users ++ [⟨newId, n, eid, Role.EMPLOYEE⟩] }) ∧
    login { st with users := st.users ++ [⟨newId, n, eid, Role.EMPLOYEE⟩] }
        (some eid) nm2 false newId2 =
      (.ok ⟨newId, n, eid, Role.EMPLOYEE⟩,
        { st with users := st.users ++ [⟨newId, n, eid, Role.EMPLOYEE⟩] }) := by
  rw [employeeFor] at h
  refine ⟨by simp [login, h], rfl, by simp [login, h], ?_⟩
  have hfind : (st.users ++ [(⟨newId, n, eid, Role.EMPLOYEE⟩ : User)]).find?
      (fun u => u.employeeId == eid && u.role == Role.EMPLOYEE) =
      some ⟨newId, n, eid, Role.EMPLOYEE⟩ := by
    rw [List.find?_append, h]
    simp
  simp [login, hfind]

theorem employee_login_lifecycle_witness :
    login ⟨[⟨1, 100, 200, Role.ADMIN⟩], [], []⟩ (some 300) none false 9 =
      (.error AuthErr.userNotFound, ⟨[⟨1, 100, 200, Role.ADMIN⟩], [], []⟩) ∧
    AuthErr.status AuthErr.userNotFound = 401 ∧
    login ⟨[⟨1, 100, 200, Role.ADMIN⟩], [], []⟩ (some 300) (some 55) false 9 =
      (.ok ⟨9, 55, 300, Role.EMPLOYEE⟩,
        ⟨[⟨1, 100, 200, Role.ADMIN⟩, ⟨9, 55, 300, Role.EMPLOYEE⟩], [], []⟩) ∧
    login ⟨[⟨1, 100, 200, Role.ADMIN⟩, ⟨9, 55, 300, Role.EMPLOYEE⟩], [], []⟩
        (some 300) (some 77) false 10 =
      (.ok ⟨9, 55, 300, Role.EMPLOYEE⟩,
        ⟨[⟨1, 100, 200, Role.ADMIN⟩, ⟨9, 55, 300, Role.EMPLOYEE⟩], [], []⟩) :=
  employee_login_lifecycle ⟨[⟨1, 100, 200, Role.ADMIN⟩], [], []⟩ 300 55 9 10
    (some 77) (by decide)

end Chaiii

namespace Chaiii

/-- Claim C7, counterexample: a vote request with the out-of-enum type
value 5, non-missing fields and no prior vote is rejected by the schema
enum as a 500 server error — not by the route's 400 InvalidArgument class —
though indeed no Vote record is inserted. -/
theorem castVote_invalid_type_counterexample :
    (castVote ⟨[], [], []⟩ (some 1) (some 2) none (some 5) 7 9).1 =
      .error VoteErr.schemaValidation ∧
    VoteErr.status VoteErr.schemaValidation = 500 ∧
    ¬ VoteErr.status VoteErr.schemaValidation = 400 ∧
    (castVote ⟨[], [], []⟩ (some 1) (some 2) none (some 5) 7 9).2.votes = [] := by
  decide

/-- Claim C7, amended: a vote request whose type is outside
`{COFFEE, TEA}` (and carries no duplicate pair, which would be caught
first) is rejected by the mongoose schema enum — surfaced as a 500 server
error, not a 400 InvalidArgument client error — and no Vote record is
inserted and no counter touched. -/
theorem castVote_invalid_type_rejected (st : State) (sid uid t : Nat)
    (un : Option Nat) (newId now : Nat)
    (hT : validVoteType t = false)
    (hNoDup : st.votes.find?
      (fun v => v.sessionId == sid && v.userId == uid) = none) :
    castVote st (some sid) (some uid) un (some t) newId now =
      (.error VoteErr.schemaValidation, st) ∧
    VoteErr.status VoteErr.schemaValidation = 500 := by
  constructor
  · simp [castVote, hNoDup, hT]
  · rfl

theorem castVote_invalid_type_rejected_witness :
    castVote ⟨[], [⟨1, 0, none, true, 0⟩], []⟩ (some 1) (some 2) none
        (some 9) 7 11 =
      (.error VoteErr.schemaValidation, ⟨[], [⟨1, 0, none, true, 0⟩], []⟩) ∧
    VoteErr.status VoteErr.schemaValidation = 500 :=
  castVote_invalid_type_rejected ⟨[], [⟨1, 0, none, true, 0⟩], []⟩ 1 2 9 none
    7 11 (by decide) (by decide)

/-- Claim C9, counterexample: the claim quantifies over every request with
non-missing `sessionId`, `userId` and `type` and no prior vote, but a
request whose type value 7 lies outside the schema enum fails (500) and
inserts nothing — so a non-missing type alone does not suffice. -/
theorem castVote_nonmissing_not_sufficient :
    (castVote ⟨[], [], []⟩ (some 3) (some 4) (some 9) (some 7) 8 10).1 =
      .error VoteErr.schemaValidation ∧
    (castVote ⟨[], [], []⟩ (some 3) (some 4) (some 9) (some 7) 8 10).2.votes
      = [] := by
  decide

/-- Claim C9, amended: `castVote` performs no session existence or
activity check: any request with non-missing fields, a type inside
`{COFFEE, TEA}` and no prior vote for the pair succeeds and appends the
Vote — in every state, so in particular when no Session matches
`sessionId` or the matching session has `isActive = false`; and when no
Session matches, the `totalVotes` increment silently updates nothing. -/
theorem castVote_ignores_session_state (st : State) (sid uid t : Nat)
    (un : Option Nat) (newId now : Nat)
    (hT : validVoteType t = true)
    (hNoDup : st.votes.find?
      (fun v => v.sessionId == sid && v.userId == uid) = none) :
    (castVote st (some sid) (some uid) un (some t) newId now).1 =
      .ok ⟨newId, sid, uid, un, t, now⟩ ∧
    (castVote st (some sid) (some uid) un (some t) newId now).2.votes =
      st.votes ++ [⟨newId, sid, uid, un, t, now⟩] ∧
    ((∀ s ∈ st.sessions, s.id ≠ sid) →
      (castVote st (some sid) (some uid) un (some t) newId now).2.sessions =
        st.sessions) := by
  refine ⟨by simp [castVote, hNoDup, hT], by simp [castVote, hNoDup, hT], ?_⟩
  intro h
  have hnone : ∀ s ∈ st.sessions, (s.id == sid) = false := by
    intro s hs
    simp [h s hs]
  simp [castVote, hNoDup, hT, updateFirst_of_none _ _ _ hnone]

theorem castVote_ignores_session_state_witness :
    (castVote ⟨[], [⟨9, 0, some 1, false, 0⟩], []⟩ (some 3) (some 4) none
        (some 1) 8 10).1 = .ok ⟨8, 3, 4, none, 1, 10⟩ ∧
    (castVote ⟨[], [⟨9, 0, some 1, false, 0⟩], []⟩ (some 3) (some 4) none
        (some 1) 8 10).2.votes = [⟨8, 3, 4, none, 1, 10⟩] ∧
    (castVote ⟨[], [⟨9, 0, some 1, false, 0⟩], []⟩ (some 3) (some 4) none
        (some 1) 8 10).2.sessions = [⟨9, 0, some 1, false, 0⟩] := by
  have h := castVote_ignores_session_state ⟨[], [⟨9, 0, some 1, false, 0⟩], []⟩
    3 4 1 none 8 10 (by decide) (by decide)
  exact ⟨h.1, h.2.1, h.2.2 (by decide)⟩

/-- Claim C8, counterexample: ending a session at time 5 and then again at
time 9 is not a no-op — the second call overwrites `endTime` with 9, so the
session record differs from what the first call produced. -/
theorem endSession_redundant_counterexample :
    (endSession
        (endSession ⟨[], [⟨1, 0, none, true, 3⟩], []⟩ 1 5).2 1 9).2 ≠
      (endSession ⟨[], [⟨1, 0, none, true, 3⟩], []⟩ 1 5).2 ∧
    (endSession
        (endSession ⟨[], [⟨1, 0, none, true, 3⟩], []⟩ 1 5).2 1 9).2 =
      ⟨[], [⟨1, 0, some 9, false, 3⟩], []⟩ := by
  decide

/-- Claim C8, amended: `endSession` is idempotent only up to `endTime`:
a repeated call leaves the session ended but stamps `endTime` with the
later call's clock — ending twice equals ending once at the second time —
and is a strict no-op exactly when the second call carries the same
timestamp as the first. -/
theorem endSession_redundant_effect (st : State) (sid t1 t2 : Nat) :
    ((endSession (endSession st sid t1).2 sid t2).2 =
      { st with
        sessions := updateFirst (fun x => x.id == sid)
          (fun x => { x with isActive := false, endTime := some t2 })
          st.sessions }) ∧
    (t2 = t1 →
      (endSession (endSession st sid t1).2 sid t2).2 =
        (endSession st sid t1).2) := by
  have h1 := endSession_state st sid t1
  have h2 := endSession_state (endSession st sid t1).2 sid t2
  have hfst : (endSession (endSession st sid t1).2 sid t2).2 =
      { st with
        sessions := updateFirst (fun x => x.id == sid)
          (fun x => { x with isActive := false, endTime := some t2 })
          st.sessions } := by
    rw [h2, h1]
    have hcomp := updateFirst_comp (fun x : Session => x.id == sid)
      (fun x => { x with isActive := false, endTime := some t1 })
      (fun x => { x with isActive := false, endTime := some t2 })
      (fun a => rfl) st.sessions
    simp only []
    rw [hcomp]
  refine ⟨hfst, ?_⟩
  intro h
  subst h
  rw [hfst, h1]

theorem endSession_redundant_effect_witness :
    ((endSession
        (endSession ⟨[], [⟨1, 0, none, true, 3⟩], []⟩ 1 5).2 1 5).2 =
      { (⟨[], [⟨1, 0, none, true, 3⟩], []⟩ : State) with
        sessions := updateFirst (fun x => x.id == 1)
          (fun x => { x with isActive := false, endTime := some 5 })
          [⟨1, 0, none, true, 3⟩] }) ∧
    ((endSession
        (endSession ⟨[], [⟨1, 0, none, true, 3⟩], []⟩ 1 5).2 1 5).2 =
      (endSession ⟨[], [⟨1, 0, none, true, 3⟩], []⟩ 1 5).2) :=
  ⟨(endSession_redundant_effect ⟨[], [⟨1, 0, none, true, 3⟩], []⟩ 1 5 5).1,
    (endSession_redundant_effect ⟨[], [⟨1, 0, none, true, 3⟩], []⟩ 1 5 5).2
      rfl⟩

end Chaiii

namespace Chaiii

/-! ## At-most-one-active-session machinery (claim C2) -/

theorem filter_isActive_deactivateAll :
    ∀ l : List Session,
      (l.map (fun x => if x.isActive then { x with isActive := false } else x)).filter
        (fun s => s.isActive) = [] := by
  intro l
  induction l with
  | nil => rfl
  | cons a as ih =>
    by_cases h : a.isActive
    · simp [List.filter_cons, h, ih]
    · simp [List.filter_cons, h, ih]

theorem startSession_ok_active (st : State) (uid : Option Nat)
    (newId now : Nat) (r : Session) (st' : State)
    (h : startSession st uid newId now = (.ok r, st')) :
    activeSessions st' = [r] := by
  by_cases ha : requesterIsAdmin st uid
  · rw [startSession, if_pos ha] at h
    have hr : r = ⟨newId, now, none, true, 0⟩ :=
      (Except.ok.inj (Prod.ext_iff.mp h).1).symm
    have hst : st' =
        { st with
          sessions :=
            (st.sessions.map
              (fun x => if x.isActive then { x with isActive := false } else x))
            ++ [⟨newId, now, none, true, 0⟩] } := (Prod.ext_iff.mp h).2.symm
    rw [hst, hr]
    simp only [activeSessions, List.filter_append, filter_isActive_deactivateAll]
    rfl
  · rw [startSession, if_neg ha] at h
    exact absurd (Prod.ext_iff.mp h).1 (by simp)

theorem atMostOneActive_endSession (st : State) (sid now : Nat)
    (h : atMostOneActive st) : atMostOneActive (endSession st sid now).2 := by
  rw [atMostOneActive, activeSessions, endSession_state]
  exact Nat.le_trans
    (length_filter_updateFirst_le _ _ _ (fun a hq => by simp at hq) st.sessions)
    h

theorem atMostOneActive_applyOp (st : State) (op : Op)
    (hop : isLifecycleOp op = true) (h : atMostOneActive st) :
    atMostOneActive (applyOp st op) := by
  cases op with
  | castVote sid uid un ty newId now => simp [isLifecycleOp] at hop
  | deleteSession sid => simp [isLifecycleOp] at hop
  | endSession sid now => exact atMostOneActive_endSession st sid now h
  | startSession uid newId now =>
    show atMostOneActive (startSession st uid newId now).2
    by_cases ha : requesterIsAdmin st uid
    · have := startSession_ok_active st uid newId now ⟨newId, now, none, true, 0⟩
        (startSession st uid newId now).2 (by rw [startSession, if_pos ha])
      rw [atMostOneActive, this]
      exact Nat.le_refl 1
    · rw [startSession, if_neg ha]
      exact h

/-- Claim C2: over any sequence of `startSession` / `endSession`
operations from a state with at most one active session, at most one
Session has `isActive = true` at every observation point; and immediately
after a `startSession` call completes successfully, the newly created
session is the one and only active session. -/
theorem at_most_one_active_invariant :
    (∀ (st : State) (ops : List Op), ops.all isLifecycleOp = true →
      atMostOneActive st → atMostOneActive (applySeq st ops)) ∧
    (∀ (st : State) (uid : Option Nat) (newId now : Nat) (r : Session)
      (st' : State), startSession st uid newId now = (.ok r, st') →
        activeSessions st' = [r]) := by
  constructor
  · intro st ops
    induction ops generalizing st with
    | nil => intro _ h; exact h
    | cons op ops ih =>
      intro hall h
      rw [List.all_cons, Bool.and_eq_true] at hall
      exact ih (applyOp st op) hall.2 (atMostOneActive_applyOp st op hall.1 h)
  · exact startSession_ok_active

theorem at_most_one_active_invariant_witness :
    atMostOneActive
      (applySeq ⟨[⟨1, 100, 200, Role.ADMIN⟩], [⟨3, 2, none, true, 0⟩], []⟩
        [Op.startSession (some 1) 5 10, Op.endSession 3 11,
          Op.startSession (some 1) 6 12]) ∧
    activeSessions
        (startSession ⟨[⟨1, 100, 200, Role.ADMIN⟩], [⟨3, 2, none, true, 0⟩], []⟩
          (some 1) 5 10).2 = [⟨5, 10, none, true, 0⟩] :=
  ⟨at_most_one_active_invariant.1
      ⟨[⟨1, 100, 200, Role.ADMIN⟩], [⟨3, 2, none, true, 0⟩], []⟩
      [Op.startSession (some 1) 5 10, Op.endSession 3 11,
        Op.startSession (some 1) 6 12] (by decide) (by unfold atMostOneActive activeSessions; decide),
    at_most_one_active_invariant.2
      ⟨[⟨1, 100, 200, Role.ADMIN⟩], [⟨3, 2, none, true, 0⟩], []⟩
      (some 1) 5 10 ⟨5, 10, none, true, 0⟩ _ rfl⟩

end Chaiii


namespace Chaiii

/-! ## Denormalized-counter machinery (claim C3) -/

theorem deact_id (x : Session) :
    ((if x.isActive then { x with isActive := false } else x) : Session).id =
      x.id := by
  by_cases h : x.isActive <;> simp [h]

theorem deact_totalVotes (x : Session) :
    ((if x.isActive then { x with isActive := false } else x) :
      Session).totalVotes = x.totalVotes := by
  by_cases h : x.isActive <;> simp [h]

theorem map_id_deactivateAll :
    ∀ l : List Session,
      (l.map (fun x => if x.isActive then { x with isActive := false } else x)).map
        Session.id = l.map Session.id := by
  intro l
  induction l with
  | nil => rfl
  | cons a as ih =>
    by_cases h : a.isActive <;> simp [h, ih]

theorem inv_applyOp (st : State) (op : Op) (hok : opOk st op = true)
    (h : Inv st) : Inv (applyOp st op) := by
  obtain ⟨hnd, hcnt⟩ := h
  have hndm : (st.sessions.map Session.id).Nodup := hnd
  cases op with
  | castVote sidO uidO un tyO newId now =>
    show Inv (castVote st sidO uidO un tyO newId now).2
    rcases sidO with _ | sid <;> rcases uidO with _ | uid <;>
      rcases tyO with _ | t
    case some.some.some =>
      cases hf : st.votes.find?
          (fun v => v.sessionId == sid && v.userId == uid) with
      | some w =>
        simp only [castVote, hf]
        exact ⟨hnd, hcnt⟩
      | none =>
        by_cases hv : validVoteType t
        · simp only [castVote, hf, hv, if_true]
          constructor
          · show ((updateFirst (fun s => s.id == sid)
                (fun s => { s with totalVotes := s.totalVotes + 1 })
                st.sessions).map Session.id).Nodup
            rw [map_updateFirst Session.id (fun s => s.id == sid)
              (fun s => { s with totalVotes := s.totalVotes + 1 })
              (fun a => rfl)]
            exact hndm
          · intro s' hs'
            rw [updateFirst_eq_map Session.id sid
              (fun s => { s with totalVotes := s.totalVotes + 1 })
              st.sessions hndm] at hs'
            obtain ⟨s, hs, rfl⟩ := List.mem_map.mp hs'
            by_cases hid : s.id == sid
            · have hide : s.id = sid := eq_of_beq hid
              simp only [hid, if_true]
              have hone : (List.filter (fun v => v.sessionId == s.id)
                  [(⟨newId, sid, uid, un, t, now⟩ : Vote)]).length = 1 := by
                simp [List.filter_cons, hide]
              simp only [List.filter_append, List.length_append, hone,
                hcnt s hs]
            · have hidf : (s.id == sid) = false := Bool.eq_false_iff.mpr hid
              have hzc : (sid == s.id) = false :=
                beq_eq_false_iff_ne.mpr (Ne.symm (beq_eq_false_iff_ne.mp hidf))
              simp only [hidf, Bool.false_eq_true, if_false]
              have hzero : (List.filter (fun v => v.sessionId == s.id)
                  [(⟨newId, sid, uid, un, t, now⟩ : Vote)]).length = 0 := by
                simp [List.filter_cons, hzc]
              simp only [List.filter_append, List.length_append, hzero,
                Nat.add_zero]
              exact hcnt s hs
        · simp only [castVote, hf, hv, Bool.false_eq_true, if_false]
          exact ⟨hnd, hcnt⟩
    all_goals exact ⟨hnd, hcnt⟩
  | startSession uidO newId now =>
    show Inv (startSession st uidO newId now).2
    by_cases ha : requesterIsAdmin st uidO
    · rw [startSession, if_pos ha]
      simp only [opOk, freshSessionId, Bool.and_eq_true, Bool.not_eq_true',
        sessionIds, voteSessionIds] at hok
      have hns : newId ∉ st.sessions.map Session.id := by
        intro hmem
        have hany : (st.sessions.map Session.id).contains newId = true := by
          rw [List.contains_eq_any_beq, List.any_eq_true]
          exact ⟨newId, hmem, beq_self_eq_true _⟩
        rw [hok.1] at hany
        exact Bool.false_ne_true hany
      have hnv : ∀ v ∈ st.votes, v.sessionId ≠ newId := by
        intro v hv he
        have hany : (st.votes.map Vote.sessionId).contains newId = true := by
          rw [List.contains_eq_any_beq, List.any_eq_true]
          refine ⟨v.sessionId, List.mem_map_of_mem _ hv, ?_⟩
          rw [he]
          exact beq_self_eq_true _
        rw [hok.2] at hany
        exact Bool.false_ne_true hany
      constructor
      · show ((((st.sessions.map
            (fun x : Session =>
              if x.isActive then { x with isActive := false } else x))
            ++ ([⟨newId, now, none, true, 0⟩] : List Session)).map
            Session.id).Nodup)
        rw [List.map_append, map_id_deactivateAll]
        rw [List.nodup_append]
        refine ⟨hndm, List.nodup_singleton _, ?_⟩
        intro a hma hmb
        have haeq : a = newId := by simpa using hmb
        subst haeq
        exact hns hma
      · intro s' hs'
        rcases List.mem_append.mp hs' with hmem | hmem
        · obtain ⟨s, hs, rfl⟩ := List.mem_map.mp hmem
          rw [deact_totalVotes, deact_id]
          exact hcnt s hs
        · have heq : s' = ⟨newId, now, none, true, 0⟩ := by simpa using hmem
          subst heq
          show (0 : Nat) =
            (st.votes.filter (fun v => v.sessionId == newId)).length
          have hfil : st.votes.filter (fun v => v.sessionId == newId) = [] := by
            rw [List.filter_eq_nil_iff]
            intro v hv
            simp [hnv v hv]
          rw [hfil]
          rfl
    · rw [startSession, if_neg ha]
      exact ⟨hnd, hcnt⟩
  | endSession sid now =>
    show Inv (endSession st sid now).2
    rw [endSession_state]
    constructor
    · show ((updateFirst (fun x => x.id == sid)
          (fun x => { x with isActive := false, endTime := some now })
          st.sessions).map Session.id).Nodup
      rw [map_updateFirst Session.id (fun x => x.id == sid)
        (fun x => { x with isActive := false, endTime := some now })
        (fun a => rfl)]
      exact hndm
    · intro s' hs'
      rw [updateFirst_eq_map Session.id sid
        (fun x => { x with isActive := false, endTime := some now })
        st.sessions hndm] at hs'
      obtain ⟨s, hs, rfl⟩ := List.mem_map.mp hs'
      by_cases hid : s.id == sid
      · simp only [hid, if_true]
        exact hcnt s hs
      · simp only [Bool.eq_false_iff.mpr hid, Bool.false_eq_true, if_false]
        exact hcnt s hs
  | deleteSession sid =>
    show Inv (deleteSession st sid)
    constructor
    · show ((st.sessions.filter (fun s => s.id != sid)).map Session.id).Nodup
      exact hndm.sublist ((List.filter_sublist _).map _)
    · intro s' hs'
      have hm := List.mem_filter.mp hs'
      show s'.totalVotes =
        ((st.votes.filter (fun v => v.sessionId != sid)).filter
          (fun v => v.sessionId == s'.id)).length
      rw [List.filter_filter]
      have hpt : ∀ v ∈ st.votes,
          (v.sessionId == s'.id && v.sessionId != sid) =
            (v.sessionId == s'.id) := by
        intro v hv
        by_cases hb : v.sessionId == s'.id
        · rw [hb, Bool.true_and, eq_of_beq hb]
          exact hm.2
        · rw [Bool.eq_false_iff.mpr hb, Bool.false_and]
      rw [List.filter_congr hpt]
      exact hcnt s' hm.1

theorem inv_applySeq : ∀ (ops : List Op) (st : State), Inv st →
    seqOk st ops = true → Inv (applySeq st ops) := by
  intro ops
  induction ops with
  | nil => intro st h _; exact h
  | cons op ops ih =>
    intro st h hok
    rw [seqOk, Bool.and_eq_true] at hok
    exact ih _ (inv_applyOp st op hok.1 h) hok.2

/-- Claim C3: in every state reachable by a completed sequence of
`castVote`, `startSession`, `endSession` and `deleteSession` operations
(with freshly generated session ids) from a store holding no sessions and
no votes, every Session's `totalVotes` equals the number of stored Votes
whose `sessionId` is that session's id. -/
theorem totalVotes_matches_vote_count (us : List User) (ops : List Op)
    (hops : seqOk ⟨us, [], []⟩ ops = true) :
    ∀ s ∈ (applySeq ⟨us, [], []⟩ ops).sessions,
      s.totalVotes =
        ((applySeq ⟨us, [], []⟩ ops).votes.filter
          (fun v => v.sessionId == s.id)).length := by
  have h0 : Inv ⟨us, [], []⟩ := by
    constructor
    · show (List.map Session.id []).Nodup
      exact List.nodup_nil
    · intro s hs
      exact absurd hs (List.not_mem_nil s)
  exact (inv_applySeq ops ⟨us, [], []⟩ h0 hops).2

theorem totalVotes_matches_vote_count_witness :
    (⟨5, 10, none, true, 1⟩ : Session).totalVotes =
      ((applySeq ⟨[⟨1, 100, 200, Role.ADMIN⟩], [], []⟩
        [Op.startSession (some 1) 5 10,
          Op.castVote (some 5) (some 2) none (some 0) 6 11]).votes.filter
        (fun v => v.sessionId == (⟨5, 10, none, true, 1⟩ : Session).id)).length :=
  totalVotes_matches_vote_count [⟨1, 100, 200, Role.ADMIN⟩]
    [Op.startSession (some 1) 5 10,
      Op.castVote (some 5) (some 2) none (some 0) 6 11]
    (by decide) ⟨5, 10, none, true, 1⟩ (by decide)

end Chaiii
